import Mathlib

/-! Verification development for the gqlparse tool (src/gqlparse.go): a shallow
embedding of its data model, operation synthesizer, JSON decoding behaviour
and main control flow, with theorems checking the design document against it.

Conventions of the embedding:
- Go slices that the program distinguishes from nil only through the
  `t.Fields != nil` test (the `Fields` member of `FullType`) are modelled as
  `Option (List _)`; `none` models a nil slice (absent or null in the JSON),
  `some []` a present-but-empty array.  Slices whose nil-ness the program
  never observes (`Types`, `Args`, `InputFields`, `EnumValues`,
  `PossibleTypes`) are modelled as plain lists.
- A nil-pointer dereference (a NON_NULL or LIST wrapper whose `OfType` is
  nil) makes the Go program panic; the corresponding Lean functions return
  `Option` values and model the panic as `none`.
- Printing is modelled as a list of stdout lines; `fmt.Println(op)` followed
  by `fmt.Println()` contributes `[op, ""]`.
-/

namespace Gqlparse

/-- TypeRef mirrors the Go struct TypeRef: Kind string, Name *string,
OfType *TypeRef.  It is an inductive because the Go struct is recursive
through the OfType pointer; `none` models a nil pointer. -/
inductive TypeRef : Type where
  | mk (kind : String) (name : Option String) (ofType : Option TypeRef)

/-- Decidable equality for TypeRef, by structural recursion. -/
def TypeRef.decEq : (a b : TypeRef) → Decidable (a = b)
  | .mk k1 n1 o1, .mk k2 n2 o2 =>
    if hk : k1 = k2 then
      if hn : n1 = n2 then
        match o1, o2 with
        | none, none => isTrue (by rw [hk, hn])
        | some x, some y =>
          match TypeRef.decEq x y with
          | isTrue ho => isTrue (by rw [hk, hn, ho])
          | isFalse ho => isFalse (fun h => by
              injection h with h1 h2 h3
              exact ho (Option.some.inj h3))
        | none, some _ => isFalse (fun h => by
            injection h with h1 h2 h3
            exact Option.noConfusion h3)
        | some _, none => isFalse (fun h => by
            injection h with h1 h2 h3
            exact Option.noConfusion h3)
      else isFalse (fun h => by injection h with h1 h2 h3; exact hn h2)
    else isFalse (fun h => by injection h with h1 h2 h3; exact hk h1)

instance : DecidableEq TypeRef := TypeRef.decEq

/-- Projection of the Kind member. -/
def TypeRef.kind : TypeRef → String
  | .mk k _ _ => k

/-- Projection of the Name member. -/
def TypeRef.name : TypeRef → Option String
  | .mk _ n _ => n

/-- Projection of the OfType member. -/
def TypeRef.ofType : TypeRef → Option TypeRef
  | .mk _ _ o => o

/-- NamedTypeRef mirrors the Go struct NamedTypeRef. -/
structure NamedTypeRef where
  name : String
deriving DecidableEq

/-- EnumValue mirrors the Go struct EnumValue. -/
structure EnumValue where
  name : String
  description : String
deriving DecidableEq

/-- InputValue mirrors the Go struct InputValue; DefaultValue is a *string. -/
structure InputValue where
  name : String
  description : String
  type : TypeRef
  defaultValue : Option String
deriving DecidableEq

/-- Field mirrors the Go struct Field. -/
structure Field where
  name : String
  description : String
  args : List InputValue
  type : TypeRef
deriving DecidableEq

/-- FullType mirrors the Go struct FullType.  `fields` is `Option (List Field)`
because findTypeByName tests `t.Fields != nil`, so the program observes the
difference between a nil slice (`none`) and an empty one (`some []`). -/
structure FullType where
  kind : String
  name : String
  fields : Option (List Field)
  inputFields : List InputValue
  enumValues : List EnumValue
  possibleTypes : List NamedTypeRef
deriving DecidableEq

/-- Schema mirrors the Go struct Schema; MutationType and SubscriptionType
are *NamedTypeRef pointers, hence Options. -/
structure Schema where
  queryType : NamedTypeRef
  mutationType : Option NamedTypeRef
  subscriptionType : Option NamedTypeRef
  types : List FullType
deriving DecidableEq

/-- The anonymous Data struct inside IntrospectionResponse. -/
structure RespData where
  schema : Schema
deriving DecidableEq

/-- IntrospectionResponse mirrors the Go root struct. -/
structure IntrospectionResponse where
  data : RespData
deriving DecidableEq

/-- getTypeString mirrors the Go function getTypeString.  The Go switch
dereferences `*t.OfType` in the NON_NULL and LIST cases; a nil OfType there
is a runtime panic, modelled as `none`. -/
def getTypeString : TypeRef → Option String
  | .mk k n o =>
    if k == "NON_NULL" then
      match o with
      | some inner => (getTypeString inner).map (fun s => s ++ "!")
      | none => none
    else if k == "LIST" then
      match o with
      | some inner => (getTypeString inner).map (fun s => "[" ++ s ++ "]")
      | none => none
    else
      some (n.getD "")

/-- unwrap mirrors the Go function unwrap, stripping NON_NULL and LIST
wrappers; a nil OfType under a wrapper is a panic, modelled as `none`. -/
def unwrap : TypeRef → Option TypeRef
  | .mk k n o =>
    if k == "NON_NULL" || k == "LIST" then
      match o with
      | some inner => unwrap inner
      | none => none
    else
      some (.mk k n o)

/-- isComposite mirrors the Go function isComposite. -/
def isComposite (t : TypeRef) : Option Bool :=
  (unwrap t).map (fun inner =>
    inner.kind == "OBJECT" || inner.kind == "INTERFACE" || inner.kind == "UNION")

/-- The loop of generateOperation over f.Args: for each argument it renders
the variable definition and the call-site assignment; a panic inside
getTypeString aborts the whole computation. -/
def argStrings : List InputValue → Option (List String × List String)
  | [] => some ([], [])
  | a :: rest =>
    match getTypeString a.type with
    | none => none
    | some ts =>
      (argStrings rest).map (fun p =>
        (("$" ++ a.name ++ ": " ++ ts) :: p.1,
         (a.name ++ ": $" ++ a.name) :: p.2))

/-- generateOperation mirrors the Go function generateOperation. -/
def generateOperation (f : Field) (opType : String) : Option String :=
  match argStrings f.args with
  | none => none
  | some (varDefs, argAssignments) =>
    let header :=
      if varDefs.length > 0 then
        opType ++ " " ++ f.name ++ "(" ++ String.intercalate ", " varDefs ++ ")"
      else
        opType
    let call :=
      f.name ++
        (if argAssignments.length > 0 then
          "(" ++ String.intercalate ", " argAssignments ++ ")"
        else "")
    match isComposite f.type with
    | none => none
    | some comp =>
      let selection := if comp then " \x7b __typename \x7d" else ""
      some (header ++ " \x7b " ++ call ++ selection ++ " \x7d")

/-- findTypeByName mirrors the Go function findTypeByName: a linear scan
returning the first type whose Name equals the argument and whose Fields
slice is non-nil (`isSome`, which also accepts a present-but-empty list). -/
def findTypeByName : List FullType → String → Option FullType
  | [], _ => none
  | t :: ts, name =>
    if t.name == name && t.fields.isSome then some t
    else findTypeByName ts name

/-! JSON documents and the decoding behaviour of encoding/json on the
structs above.  A `Json` value is an already-parsed, syntactically valid
document; `json.Unmarshal` errors on shape mismatches (e.g. a number where
an object is expected) but tolerates missing members, leaving the target at
its current (zero) value.  Key lookup is case-insensitive, as in
encoding/json field matching (no two tags of one struct collide under
folding, so a simple case fold reproduces the library rule), and duplicate
keys are decoded sequentially into the same target, the later occurrence
merging over the earlier one. -/

/-- A parsed JSON document. -/
inductive Json : Type where
  | null
  | bool (b : Bool)
  | num (n : Int)
  | str (s : String)
  | arr (elems : List Json)
  | obj (members : List (String × Json))

/-- Whether a document is the JSON null literal. -/
def Json.isNull : Json → Bool
  | .null => true
  | _ => false

/-- ASCII case folding of one character, for the field matcher. -/
def foldChar (c : Char) : Char :=
  if 65 ≤ c.toNat ∧ c.toNat ≤ 90 then Char.ofNat (c.toNat + 32) else c

/-- Case-insensitive key matching of encoding/json (ASCII fold). -/
def foldEq (a b : String) : Bool :=
  a.data.map foldChar == b.data.map foldChar

/-- Decoding a JSON value into a Go string field: null leaves the current
value, a string replaces it, anything else is a type error. -/
def decString : Json → String → Except Unit String
  | .null, cur => .ok cur
  | .str s, _ => .ok s
  | _, _ => .error ()

/-- Decoding into a Go *string: null sets nil, a string allocates. -/
def decStrPtr : Json → Option String → Except Unit (Option String)
  | .null, _ => .ok none
  | .str s, _ => .ok (some s)
  | _, _ => .error ()

/-- Sequential decoding of the members of a JSON object into a struct,
given the per-key assignment rule: later duplicates merge over earlier. -/
def decMembers (decKV : α → String → Json → Except Unit α) :
    List (String × Json) → α → Except Unit α
  | [], acc => .ok acc
  | (k, v) :: rest, acc =>
    match decKV acc k v with
    | .ok a2 => decMembers decKV rest a2
    | .error e => .error e

/-- The zero value of TypeRef. -/
def zeroTypeRef : TypeRef := .mk "" none none

mutual

/-- Decoding a JSON value into a TypeRef struct: null is a no-op, an object
is decoded member by member, anything else is a type error. -/
def decTypeRef : Json → TypeRef → Except Unit TypeRef
  | .null, acc => .ok acc
  | .obj kvs, acc => decTypeRefMembers kvs acc
  | _, _ => .error ()

/-- Member-wise decoding into a TypeRef: kind (string), name (*string),
ofType (*TypeRef, recursive); unknown keys are ignored. -/
def decTypeRefMembers : List (String × Json) → TypeRef → Except Unit TypeRef
  | [], acc => .ok acc
  | (k, v) :: rest, acc =>
    if foldEq k "kind" then
      match decString v acc.kind with
      | .ok s => decTypeRefMembers rest (.mk s acc.name acc.ofType)
      | .error e => .error e
    else if foldEq k "name" then
      match decStrPtr v acc.name with
      | .ok n => decTypeRefMembers rest (.mk acc.kind n acc.ofType)
      | .error e => .error e
    else if foldEq k "ofType" then
      match v with
      | .null => decTypeRefMembers rest (.mk acc.kind acc.name none)
      | _ =>
        match decTypeRef v (acc.ofType.getD zeroTypeRef) with
        | .ok inner => decTypeRefMembers rest (.mk acc.kind acc.name (some inner))
        | .error e => .error e
    else
      decTypeRefMembers rest acc

end

/-- Decoding into a Go slice modelled as a plain list: null gives the nil
slice (indistinguishable from empty for these members), an array decodes
each element from the zero value, anything else is a type error. -/
def decSlice (dec : Json → α → Except Unit α) (zero : α) :
    Json → List α → Except Unit (List α)
  | .null, _ => .ok []
  | .arr xs, _ => xs.mapM (fun x => dec x zero)
  | _, _ => .error ()

/-- The zero value of InputValue. -/
def zeroInputValue : InputValue := ⟨"", "", zeroTypeRef, none⟩

/-- Assignment rule for one member of an InputValue object. -/
def decInputValueKV (acc : InputValue) (k : String) (v : Json) :
    Except Unit InputValue :=
  if foldEq k "name" then
    (decString v acc.name).map (fun s => { acc with name := s })
  else if foldEq k "description" then
    (decString v acc.description).map (fun s => { acc with description := s })
  else if foldEq k "type" then
    (decTypeRef v acc.type).map (fun t => { acc with type := t })
  else if foldEq k "defaultValue" then
    (decStrPtr v acc.defaultValue).map (fun d => { acc with defaultValue := d })
  else
    .ok acc

/-- Decoding a JSON value into an InputValue struct. -/
def decInputValue : Json → InputValue → Except Unit InputValue
  | .null, acc => .ok acc
  | .obj kvs, acc => decMembers decInputValueKV kvs acc
  | _, _ => .error ()

/-- The zero value of Field. -/
def zeroField : Field := ⟨"", "", [], zeroTypeRef⟩

/-- Assignment rule for one member of a Field object. -/
def decFieldKV (acc : Field) (k : String) (v : Json) : Except Unit Field :=
  if foldEq k "name" then
    (decString v acc.name).map (fun s => { acc with name := s })
  else if foldEq k "description" then
    (decString v acc.description).map (fun s => { acc with description := s })
  else if foldEq k "args" then
    (decSlice decInputValue zeroInputValue v acc.args).map
      (fun xs => { acc with args := xs })
  else if foldEq k "type" then
    (decTypeRef v acc.type).map (fun t => { acc with type := t })
  else
    .ok acc

/-- Decoding a JSON value into a Field struct. -/
def decField : Json → Field → Except Unit Field
  | .null, acc => .ok acc
  | .obj kvs, acc => decMembers decFieldKV kvs acc
  | _, _ => .error ()

/-- The zero value of EnumValue. -/
def zeroEnumValue : EnumValue := ⟨"", ""⟩

/-- Assignment rule for one member of an EnumValue object. -/
def decEnumValueKV (acc : EnumValue) (k : String) (v : Json) :
    Except Unit EnumValue :=
  if foldEq k "name" then
    (decString v acc.name).map (fun s => { acc with name := s })
  else if foldEq k "description" then
    (decString v acc.description).map (fun s => { acc with description := s })
  else
    .ok acc

/-- Decoding a JSON value into an EnumValue struct. -/
def decEnumValue : Json → EnumValue → Except Unit EnumValue
  | .null, acc => .ok acc
  | .obj kvs, acc => decMembers decEnumValueKV kvs acc
  | _, _ => .error ()

/-- The zero value of NamedTypeRef. -/
def zeroNamed : NamedTypeRef := ⟨""⟩

/-- Assignment rule for one member of a NamedTypeRef object. -/
def decNamedKV (acc : NamedTypeRef) (k : String) (v : Json) :
    Except Unit NamedTypeRef :=
  if foldEq k "name" then
    (decString v acc.name).map (fun s => ⟨s⟩)
  else
    .ok acc

/-- Decoding a JSON value into a NamedTypeRef struct. -/
def decNamed : Json → NamedTypeRef → Except Unit NamedTypeRef
  | .null, acc => .ok acc
  | .obj kvs, acc => decMembers decNamedKV kvs acc
  | _, _ => .error ()

/-- Decoding into a []Field member kept as Option (List Field): null gives
the nil slice (`none`), an array a present list. -/
def decFieldsSlice : Json → Option (List Field) → Except Unit (Option (List Field))
  | .null, _ => .ok none
  | .arr xs, _ => (xs.mapM (fun x => decField x zeroField)).map some
  | _, _ => .error ()

/-- The zero value of FullType (its Fields slice is nil). -/
def zeroFullType : FullType := ⟨"", "", none, [], [], []⟩

/-- Assignment rule for one member of a FullType object. -/
def decFullTypeKV (acc : FullType) (k : String) (v : Json) :
    Except Unit FullType :=
  if foldEq k "kind" then
    (decString v acc.kind).map (fun s => { acc with kind := s })
  else if foldEq k "name" then
    (decString v acc.name).map (fun s => { acc with name := s })
  else if foldEq k "fields" then
    (decFieldsSlice v acc.fields).map (fun fs => { acc with fields := fs })
  else if foldEq k "inputFields" then
    (decSlice decInputValue zeroInputValue v acc.inputFields).map
      (fun xs => { acc with inputFields := xs })
  else if foldEq k "enumValues" then
    (decSlice decEnumValue zeroEnumValue v acc.enumValues).map
      (fun xs => { acc with enumValues := xs })
  else if foldEq k "possibleTypes" then
    (decSlice decNamed zeroNamed v acc.possibleTypes).map
      (fun xs => { acc with possibleTypes := xs })
  else
    .ok acc

/-- Decoding a JSON value into a FullType struct. -/
def decFullType : Json → FullType → Except Unit FullType
  | .null, acc => .ok acc
  | .obj kvs, acc => decMembers decFullTypeKV kvs acc
  | _, _ => .error ()

/-- The zero value of Schema. -/
def zeroSchema : Schema := ⟨zeroNamed, none, none, []⟩

/-- Decoding into a *NamedTypeRef: null sets nil, otherwise the pointee is
allocated (or reused) and decoded into. -/
def decNamedPtr (v : Json) (cur : Option NamedTypeRef) :
    Except Unit (Option NamedTypeRef) :=
  match v with
  | .null => .ok none
  | _ => (decNamed v (cur.getD zeroNamed)).map some

/-- Assignment rule for one member of a Schema object. -/
def decSchemaKV (acc : Schema) (k : String) (v : Json) : Except Unit Schema :=
  if foldEq k "queryType" then
    (decNamed v acc.queryType).map (fun q => { acc with queryType := q })
  else if foldEq k "mutationType" then
    (decNamedPtr v acc.mutationType).map (fun m => { acc with mutationType := m })
  else if foldEq k "subscriptionType" then
    (decNamedPtr v acc.subscriptionType).map
      (fun s => { acc with subscriptionType := s })
  else if foldEq k "types" then
    (decSlice decFullType zeroFullType v acc.types).map
      (fun ts => { acc with types := ts })
  else
    .ok acc

/-- Decoding a JSON value into a Schema struct. -/
def decSchema : Json → Schema → Except Unit Schema
  | .null, acc => .ok acc
  | .obj kvs, acc => decMembers decSchemaKV kvs acc
  | _, _ => .error ()

/-- The zero value of the anonymous Data struct. -/
def zeroRespData : RespData := ⟨zeroSchema⟩

/-- Assignment rule for one member of the Data object: only __schema. -/
def decRespDataKV (acc : RespData) (k : String) (v : Json) :
    Except Unit RespData :=
  if foldEq k "__schema" then
    (decSchema v acc.schema).map (fun s => ⟨s⟩)
  else
    .ok acc

/-- Decoding a JSON value into the Data struct. -/
def decRespData : Json → RespData → Except Unit RespData
  | .null, acc => .ok acc
  | .obj kvs, acc => decMembers decRespDataKV kvs acc
  | _, _ => .error ()

/-- The zero value of IntrospectionResponse. -/
def zeroIR : IntrospectionResponse := ⟨zeroRespData⟩

/-- Assignment rule for one member of the root object: only data. -/
def decIRKV (acc : IntrospectionResponse) (k : String) (v : Json) :
    Except Unit IntrospectionResponse :=
  if foldEq k "data" then
    (decRespData v acc.data).map (fun d => ⟨d⟩)
  else
    .ok acc

/-- Decoding a JSON value into an IntrospectionResponse struct. -/
def decIR : Json → IntrospectionResponse → Except Unit IntrospectionResponse
  | .null, acc => .ok acc
  | .obj kvs, acc => decMembers decIRKV kvs acc
  | _, _ => .error ()

/-- json.Unmarshal of the input document into a fresh (zero-valued)
IntrospectionResponse, as performed by main. -/
def decodeIntrospection (j : Json) : Except Unit IntrospectionResponse :=
  decIR j zeroIR

/-! The control flow of main, as a big-step function from the decoded input
to the observable outcome: the stdout lines, whether the informational
"No mutations defined in the schema." log line was emitted, and how the
process ended. -/

/-- How the process ends.  The fatal constructors correspond to the
log.Fatalf calls of main (which exit with a non-zero status after writing
the message to the error stream): fatalDecode to "Error parsing JSON",
fatalQueryType to "Could not find query type with name %s", and
fatalMutationType to "Could not find mutation type with name %s".  usage is
the flag.Usage plus os.Exit(1) path, fatalRead the unreadable-file path,
and panicked a nil-pointer dereference inside operation generation. -/
inductive ExitKind : Type where
  | success
  | usage
  | fatalRead
  | fatalDecode
  | fatalQueryType (name : String)
  | fatalMutationType (name : String)
  | panicked
deriving DecidableEq

/-- The observable outcome of the pipeline after decoding. -/
structure RunResult where
  stdout : List String
  noMutationsNotice : Bool
  exit : ExitKind
deriving DecidableEq

/-- The print loop over the fields of a root type: each field contributes
its generated operation line and a blank line; a panic inside
generateOperation stops the loop before printing that operation.  The
Boolean records whether the loop completed without panicking. -/
def printOps : List Field → String → List String × Bool
  | [], _ => ([], true)
  | f :: fs, opType =>
    match generateOperation f opType with
    | none => ([], false)
    | some op =>
      let rest := printOps fs opType
      (op :: "" :: rest.1, rest.2)

/-- The part of main that follows a successful decode: locate the query
root type, print one operation per field, and, when mutations were
requested, handle the mutation root the same way (missing name is a
non-fatal notice; name present but not locatable is fatal). -/
def runSchema (schema : Schema) (includeMutations : Bool) : RunResult :=
  match findTypeByName schema.types schema.queryType.name with
  | none => ⟨[], false, .fatalQueryType schema.queryType.name⟩
  | some queryType =>
    let q := printOps (queryType.fields.getD []) "query"
    if !q.2 then ⟨q.1, false, .panicked⟩
    else if includeMutations then
      match schema.mutationType with
      | none => ⟨q.1, true, .success⟩
      | some mt =>
        match findTypeByName schema.types mt.name with
        | none => ⟨q.1, false, .fatalMutationType mt.name⟩
        | some mutationType =>
          let m := printOps (mutationType.fields.getD []) "mutation"
          ⟨q.1 ++ m.1, false, if m.2 then .success else .panicked⟩
    else ⟨q.1, false, .success⟩

/-- main from json.Unmarshal onwards: a decode error is fatal before any
operation is printed; otherwise the decoded schema is processed. -/
def run (j : Json) (includeMutations : Bool) : RunResult :=
  match decodeIntrospection j with
  | .error _ => ⟨[], false, .fatalDecode⟩
  | .ok ir => runSchema ir.data.schema includeMutations

/-- The complete command-line surface of the program: the -i flag (input
file path, default "") and the -m flag (include mutations, default false).
These are the only flags flag.String/flag.Bool register in main. -/
structure Config where
  schemaFile : String
  includeMutations : Bool
deriving DecidableEq

/-- The observable outcome of a whole invocation, including whether the
input file was read. -/
structure MainResult where
  stdout : List String
  noMutationsNotice : Bool
  exit : ExitKind
  fileRead : Bool
deriving DecidableEq

/-- Whole-program model of main: an empty -i value prints usage and exits
non-zero without touching the file; otherwise the file is read (an
unreadable file, modelled as `none`, is fatal), parsed and processed. -/
def gqlparse (cfg : Config) (file : Option Json) : MainResult :=
  if cfg.schemaFile == "" then ⟨[], false, .usage, false⟩
  else
    match file with
    | none => ⟨[], false, .fatalRead, true⟩
    | some j =>
      let r := run j cfg.includeMutations
      ⟨r.stdout, r.noMutationsNotice, r.exit, true⟩

/-! Claim-side definitions, written from the wording of the design
document, to be compared with the definitions translated from the source. -/

/-- Stated lookup rule of the spec: the first type whose name matches and
whose fields list is non-empty (an empty or absent list is skipped). -/
def specFindTypeByName (ts : List FullType) (n : String) : Option FullType :=
  ts.find? (fun t => t.name == n && !(t.fields.getD []).isEmpty)

/-- Amended lookup rule forced by the source: the first type whose name
matches and whose fields slice is present (non-nil), empty or not. -/
def amendedFindTypeByName (ts : List FullType) (n : String) : Option FullType :=
  ts.find? (fun t => t.name == n && t.fields.isSome)

/-- Step 1 of the operation-assembly spec: the comma-joined variable
declarations, one per argument in declared order. -/
def specVarDecls : List InputValue → Option (List String)
  | [] => some []
  | a :: rest =>
    match getTypeString a.type, specVarDecls rest with
    | some ts, some ds => some (("$" ++ a.name ++ ": " ++ ts) :: ds)
    | _, _ => none

/-- Step 2 of the operation-assembly spec: the header is the bare kind
keyword when there are no arguments, else kind, field name and the
parenthesized declarations. -/
def specHeader (f : Field) (opType : String) : Option String :=
  match f.args with
  | [] => some opType
  | _ :: _ =>
    (specVarDecls f.args).map (fun ds =>
      opType ++ " " ++ f.name ++ "(" ++ String.intercalate ", " ds ++ ")")

/-- Step 3 of the operation-assembly spec: the field call, with the
parenthesized bindings only when there is at least one argument. -/
def specCall (f : Field) : String :=
  match f.args with
  | [] => f.name
  | _ :: _ =>
    f.name ++ "(" ++
      String.intercalate ", " (f.args.map (fun a => a.name ++ ": $" ++ a.name)) ++ ")"

/-- Steps 4 and 5 of the operation-assembly spec: the fixed placeholder
selection exactly when the return type is composite, assembled as
header { call suffix }. -/
def specOperation (f : Field) (opType : String) : Option String :=
  match specHeader f opType, isComposite f.type with
  | some h, some comp =>
    some (h ++ " \x7b " ++ specCall f ++
      (if comp then " \x7b __typename \x7d" else "") ++ " \x7d")
  | _, _ => none

/-- Stated output shape: one operation per field in declared order, each
followed by a blank line. -/
def specLines (fields : List Field) (opType : String) : List String :=
  fields.flatMap (fun f =>
    match generateOperation f opType with
    | some op => [op, ""]
    | none => [])

/-- Whether a member value contains no usable top-level __schema object:
it is not an object, or every member matching __schema is null. -/
def schemaAbsentIn : Json → Bool
  | .obj kvs => kvs.all (fun p => !(foldEq p.1 "__schema") || p.2.isNull)
  | _ => true

/-- Whether the document lacks the top-level data.__schema object: every
member of the root object matching data has no usable __schema member. -/
def lacksSchema : Json → Bool
  | .obj kvs => kvs.all (fun p => !(foldEq p.1 "data") || schemaAbsentIn p.2)
  | _ => true

/-- Invariant of the design document: following ofType links from any
NON_NULL or LIST wrapper reaches a named, non-wrapper leaf. -/
def reachesNamedLeaf : TypeRef → Bool
  | .mk k n o =>
    if k == "NON_NULL" || k == "LIST" then
      match o with
      | some inner => reachesNamedLeaf inner
      | none => false
    else n.isSome

/-- Length of the ofType chain of a TypeRef. -/
def chainDepth : TypeRef → Nat
  | .mk _ _ none => 0
  | .mk _ _ (some inner) => chainDepth inner + 1

/-- Step-counting version of getTypeString: each recursive unfolding
consumes one unit of fuel, and exhausted fuel is reported as failure, so a
success witnesses termination of the recursion in that many steps. -/
def getTypeStringFuel : Nat → TypeRef → Option String
  | 0, _ => none
  | fuel + 1, .mk k n o =>
    if k == "NON_NULL" then
      match o with
      | some inner => (getTypeStringFuel fuel inner).map (fun s => s ++ "!")
      | none => none
    else if k == "LIST" then
      match o with
      | some inner => (getTypeStringFuel fuel inner).map (fun s => "[" ++ s ++ "]")
      | none => none
    else
      some (n.getD "")

/-- Step-counting version of unwrap. -/
def unwrapFuel : Nat → TypeRef → Option TypeRef
  | 0, _ => none
  | fuel + 1, .mk k n o =>
    if k == "NON_NULL" || k == "LIST" then
      match o with
      | some inner => unwrapFuel fuel inner
      | none => none
    else
      some (.mk k n o)

/-- A LIST chain of the given depth over a String scalar leaf, used to
exhibit well-formed TypeRefs of every nesting depth. -/
def nestList : Nat → TypeRef
  | 0 => .mk "SCALAR" (some "String") none
  | n + 1 => .mk "LIST" none (some (nestList n))

/-! Theorems.  Shared lemmas come first, then one theorem per claim of the
design review, each with its witness or counterexample where required. -/

/-- findTypeByName is the first-match scan under the predicate
name-equality and fields-slice-present. -/
theorem findTypeByName_eq_find (ts : List FullType) (n : String) :
    findTypeByName ts n = amendedFindTypeByName ts n := by
  induction ts with
  | nil => rfl
  | cons t rest ih =>
    simp only [findTypeByName, amendedFindTypeByName, List.find?]
    cases h : t.name == n && t.fields.isSome with
    | true => simp [h]
    | false => simpa [h, amendedFindTypeByName] using ih

/-- C1: the lookup is claimed to require a non-empty fields list, skipping a
name match whose fields list is empty; the source only tests that the
fields slice is non-nil, so a present-but-empty fields list is returned.
At a single type named Query with fields equal to the empty (non-nil) list,
the code finds the type while the stated rule reports not-found. -/
theorem c1_lookup_counterexample :
    findTypeByName [⟨"OBJECT", "Query", some [], [], [], []⟩] "Query" =
      some ⟨"OBJECT", "Query", some [], [], [], []⟩
    ∧ (FullType.fields ⟨"OBJECT", "Query", some [], [], [], []⟩ = some []
    ∧ specFindTypeByName [⟨"OBJECT", "Query", some [], [], [], []⟩] "Query" = none) := by
  refine ⟨by decide, by decide, by decide⟩

/-- C1 (amended): findTypeByName returns the first FullType whose name
equals the given name and whose fields slice is present (non-nil), whether
or not it is empty; only an absent (nil) fields slice is skipped, and if no
entry satisfies both conjuncts the lookup returns nothing. -/
theorem c1_lookup_amended (ts : List FullType) (n : String) :
    findTypeByName ts n = ts.find? (fun t => t.name == n && t.fields.isSome) :=
  findTypeByName_eq_find ts n

/-- C7: the claim describes an alternate mode flag that skips the input
file and prints a fixed introspection query; the source registers only the
-i and -m flags.  With the sole boolean mode flag -m set, the input file is
still read, and the only invocations that skip the read (empty -i) print
nothing to stdout and exit through the usage path, so no flag setting
produces the claimed behaviour. -/
theorem c7_mode_counterexample :
    (gqlparse ⟨"schema.json", true⟩ (some (Json.obj []))).fileRead = true
    ∧ (gqlparse ⟨"", true⟩ none).stdout = []
    ∧ (gqlparse ⟨"", true⟩ none).exit = ExitKind.usage
    ∧ (gqlparse ⟨"", false⟩ none).stdout = [] := by
  refine ⟨rfl, rfl, rfl, rfl⟩

/-- C7 (amended): the program has no alternate mode: its whole flag surface
is the input-file flag and the mutation flag, and every invocation either
reads the input file, or (exactly when the input-file flag is empty) prints
nothing to standard output and exits non-zero through the usage path. -/
theorem c7_no_alternate_mode (cfg : Config) (file : Option Json) :
    (gqlparse cfg file).fileRead = true
    ∨ (cfg.schemaFile = "" ∧ gqlparse cfg file = ⟨[], false, .usage, false⟩) := by
  unfold gqlparse
  by_cases h : cfg.schemaFile == ""
  · exact Or.inr ⟨by simpa using h, by simp [h]⟩
  · cases file with
    | none => simp [h]
    | some j => simp [h]

/-- C10: the subscription root type of a decoded schema never influences
the pipeline: replacing the subscriptionType member leaves the stdout
lines, the notice and the exit outcome unchanged, for either flag value. -/
theorem c10_subscription_independent (s : Schema) (v : Option NamedTypeRef)
    (m : Bool) :
    runSchema { s with subscriptionType := v } m = runSchema s m := rfl

/-- When every member of a Data object matching __schema is null, decoding
the object leaves the schema untouched. -/
theorem decRespData_members_keep (kvs : List (String × Json)) (s : Schema)
    (h : kvs.all (fun p => !(foldEq p.1 "__schema") || p.2.isNull) = true) :
    decMembers decRespDataKV kvs ⟨s⟩ = .ok ⟨s⟩ := by
  induction kvs with
  | nil => rfl
  | cons p rest ih =>
    obtain ⟨k, v⟩ := p
    rw [List.all_cons, Bool.and_eq_true] at h
    obtain ⟨hp, hrest⟩ := h
    have hkv : decRespDataKV ⟨s⟩ k v = .ok ⟨s⟩ := by
      by_cases hk : foldEq k "__schema" = true
      · have hnull : v = Json.null := by
          cases hj : v
          case null => rfl
          all_goals (rw [hk, hj] at hp; simp [Json.isNull] at hp)
        unfold decRespDataKV
        rw [if_pos hk, hnull]
        rfl
      · unfold decRespDataKV
        rw [if_neg hk]
    simp only [decMembers, hkv]
    exact ih hrest

/-- A member value with no usable __schema object either decodes as a
no-op on the schema or fails with a type error. -/
theorem decRespData_keep (v : Json) (s : Schema)
    (h : schemaAbsentIn v = true) :
    decRespData v ⟨s⟩ = .ok ⟨s⟩ ∨ decRespData v ⟨s⟩ = .error () := by
  cases v with
  | null => exact Or.inl rfl
  | obj kvs => exact Or.inl (decRespData_members_keep kvs s h)
  | bool b => exact Or.inr rfl
  | num n => exact Or.inr rfl
  | str s2 => exact Or.inr rfl
  | arr xs => exact Or.inr rfl

/-- Decoding the members of a root object that lacks a usable data.__schema
either keeps the zero response value or fails with a type error. -/
theorem decIR_members_keep (kvs : List (String × Json))
    (h : kvs.all (fun p => !(foldEq p.1 "data") || schemaAbsentIn p.2) = true) :
    decMembers decIRKV kvs zeroIR = .ok zeroIR
    ∨ decMembers decIRKV kvs zeroIR = .error () := by
  induction kvs with
  | nil => exact Or.inl rfl
  | cons p rest ih =>
    obtain ⟨k, v⟩ := p
    rw [List.all_cons, Bool.and_eq_true] at h
    obtain ⟨hp, hrest⟩ := h
    by_cases hk : foldEq k "data" = true
    · have habs : schemaAbsentIn v = true := by
        cases ha : schemaAbsentIn v with
        | true => rfl
        | false => rw [hk, ha] at hp; exact absurd hp (by decide)
      rcases decRespData_keep v zeroSchema habs with hok | herr
      · have hkv : decIRKV zeroIR k v = .ok zeroIR := by
          unfold decIRKV
          rw [if_pos hk]
          show (decRespData v ⟨zeroSchema⟩).map _ = _
          rw [hok]
          rfl
        have hstep : decMembers decIRKV ((k, v) :: rest) zeroIR
            = decMembers decIRKV rest zeroIR := by
          simp only [decMembers, hkv]
        rw [hstep]
        exact ih hrest
      · have hkv : decIRKV zeroIR k v = .error () := by
          unfold decIRKV
          rw [if_pos hk]
          show (decRespData v ⟨zeroSchema⟩).map _ = _
          rw [herr]
          rfl
        have hstep : decMembers decIRKV ((k, v) :: rest) zeroIR = .error () := by
          simp only [decMembers, hkv]
        rw [hstep]
        exact Or.inr rfl
    · have hkv : decIRKV zeroIR k v = .ok zeroIR := by
        unfold decIRKV
        rw [if_neg hk]
      have hstep : decMembers decIRKV ((k, v) :: rest) zeroIR
          = decMembers decIRKV rest zeroIR := by
        simp only [decMembers, hkv]
      rw [hstep]
      exact ih hrest

/-- A document lacking the top-level data.__schema object decodes either
with a type error or to the zero-valued response. -/
theorem decode_lacksSchema (j : Json) (h : lacksSchema j = true) :
    decodeIntrospection j = .ok zeroIR ∨ decodeIntrospection j = .error () := by
  cases j with
  | null => exact Or.inl rfl
  | obj kvs => exact decIR_members_keep kvs h
  | bool b => exact Or.inr rfl
  | num n => exact Or.inr rfl
  | str s => exact Or.inr rfl
  | arr xs => exact Or.inr rfl

/-- C2 (corrected and amended): a document lacking the top-level
data.__schema object makes the program exit with a non-zero status before
printing any operation, but the failure is a fatal decode error only when
the document is shape-incompatible with the expected structure; a document
that otherwise decodes leaves the response at its zero value, and the
program then fails with the fatal could-not-find-query-type error for the
empty type name. -/
theorem c2_missing_schema (j : Json) (m : Bool) (h : lacksSchema j = true) :
    (run j m).stdout = []
    ∧ (run j m).exit ≠ ExitKind.success
    ∧ ((run j m).exit = ExitKind.fatalDecode
       ∨ (run j m).exit = ExitKind.fatalQueryType "") := by
  rcases decode_lacksSchema j h with hok | herr
  · have hrun : run j m = ⟨[], false, ExitKind.fatalQueryType ""⟩ := by
      unfold run
      rw [hok]
      rfl
    rw [hrun]
    exact ⟨rfl, by decide, Or.inr rfl⟩
  · have hrun : run j m = ⟨[], false, ExitKind.fatalDecode⟩ := by
      unfold run
      rw [herr]
    rw [hrun]
    exact ⟨rfl, by decide, Or.inl rfl⟩

/-- C2 witness: the document with a null data member lacks data.__schema,
and the program run on it prints nothing and exits non-zero. -/
theorem c2_missing_schema_witness :
    lacksSchema (Json.obj [("data", Json.null)]) = true
    ∧ ((run (Json.obj [("data", Json.null)]) true).stdout = []
       ∧ (run (Json.obj [("data", Json.null)]) true).exit ≠ ExitKind.success
       ∧ ((run (Json.obj [("data", Json.null)]) true).exit = ExitKind.fatalDecode
          ∨ (run (Json.obj [("data", Json.null)]) true).exit
              = ExitKind.fatalQueryType "")) :=
  ⟨by decide, c2_missing_schema (Json.obj [("data", Json.null)]) true (by decide)⟩

/-- Appending the empty string on the right is the identity. -/
theorem str_append_empty (s : String) : s ++ "" = s := by
  cases s with
  | mk data => show String.mk (data ++ []) = String.mk data; rw [List.append_nil]

/-- String concatenation is associative. -/
theorem str_append_assoc (a b c : String) : a ++ b ++ c = a ++ (b ++ c) := by
  cases a with
  | mk da =>
    cases b with
    | mk db =>
      cases c with
      | mk dc =>
        show String.mk (da ++ db ++ dc) = String.mk (da ++ (db ++ dc))
        rw [List.append_assoc]

/-- The source loop over the arguments computes exactly the variable
declarations of the spec paired with the call-site bindings. -/
theorem argStrings_eq (args : List InputValue) :
    argStrings args =
      (specVarDecls args).map
        (fun ds => (ds, args.map (fun a => a.name ++ ": $" ++ a.name))) := by
  induction args with
  | nil => rfl
  | cons a rest ih =>
    simp only [argStrings, specVarDecls]
    cases hts : getTypeString a.type with
    | none => rfl
    | some ts =>
      rw [ih]
      cases hds : specVarDecls rest with
      | none => rfl
      | some ds => rfl

/-- The spec variable declarations are in bijection with the arguments. -/
theorem specVarDecls_length (args : List InputValue) (ds : List String)
    (h : specVarDecls args = some ds) : ds.length = args.length := by
  induction args generalizing ds with
  | nil =>
    simp only [specVarDecls] at h
    cases h
    rfl
  | cons a rest ih =>
    simp only [specVarDecls] at h
    cases hts : getTypeString a.type with
    | none => rw [hts] at h; exact absurd h (by simp)
    | some ts =>
      cases hds : specVarDecls rest with
      | none => rw [hts, hds] at h; exact absurd h (by simp)
      | some ds2 =>
        rw [hts, hds] at h
        cases h
        simp [ih ds2 hds]

/-- The operation built by the source equals the operation assembled by the
five steps of the spec, for every field and operation kind (both also agree
on the panic cases, where neither produces a string). -/
theorem genOp_eq_spec (f : Field) (opType : String) :
    generateOperation f opType = specOperation f opType := by
  unfold generateOperation specOperation specHeader specCall
  rw [argStrings_eq]
  cases hds : specVarDecls f.args with
  | none =>
    cases hargs : f.args with
    | nil => rw [hargs] at hds; exact absurd hds (by simp [specVarDecls])
    | cons a rest => rfl
  | some ds =>
    have hlen := specVarDecls_length f.args ds hds
    cases hargs : f.args with
    | nil =>
      rw [hargs] at hds
      simp only [specVarDecls] at hds
      cases hds
      cases hcomp : isComposite f.type with
      | none => rfl
      | some comp => simp [str_append_empty]
    | cons a rest =>
      rw [hargs] at hlen
      have hpos : ds.length > 0 := by rw [hlen]; exact Nat.succ_pos _
      have hpos2 : (List.map (fun a => a.name ++ ": $" ++ a.name)
          (a :: rest)).length > 0 := by
        simp
      cases hcomp : isComposite f.type with
      | none => rfl
      | some comp => simp [hpos, hpos2, str_append_assoc]

/-- C2 counterexample: the well-shaped document with an empty root object
lacks data.__schema, yet json.Unmarshal succeeds on it, so the program does
not fail with the claimed fatal decode error; it reaches the
could-not-find-query-type error instead. -/
theorem c2_decode_error_counterexample :
    lacksSchema (Json.obj []) = true
    ∧ run (Json.obj []) false = ⟨[], false, ExitKind.fatalQueryType ""⟩
    ∧ (run (Json.obj []) false).exit ≠ ExitKind.fatalDecode := by
  refine ⟨by decide, by decide, by decide⟩

/-- C3: the synthesized operation is assembled as header, outer braces,
call and suffix exactly as the spec states, for every field and operation
kind; in particular the zero-argument scalar field ping yields exactly
query with a bare ping call, and the one-argument field user with a
non-null ID argument and an OBJECT return type yields exactly the
query-user operation with variable declaration, binding and placeholder
selection. -/
theorem c3_operation_assembly :
    (∀ (f : Field) (opType : String),
       generateOperation f opType = specOperation f opType)
    ∧ generateOperation ⟨"ping", "", [], .mk "SCALAR" (some "String") none⟩
        "query" = some "query \x7b ping \x7d"
    ∧ generateOperation
        ⟨"user", "",
         [⟨"id", "", .mk "NON_NULL" none (some (.mk "SCALAR" (some "ID") none)),
           none⟩],
         .mk "OBJECT" (some "User") none⟩ "query"
      = some "query user($id: ID!) \x7b user(id: $id) \x7b __typename \x7d \x7d" :=
  ⟨genOp_eq_spec, by decide, by decide⟩

/-- C4: getTypeString renders a NON_NULL wrapper as the inner rendering
followed by an exclamation mark, a LIST wrapper as the inner rendering in
square brackets, and a named leaf as its name (the empty string when the
name is absent); consequently NON_NULL(LIST(NON_NULL(SCALAR String)))
renders as the non-null list of non-null String syntax. -/
theorem c4_type_rendering :
    (∀ (nm : Option String) (t : TypeRef),
       getTypeString (.mk "NON_NULL" nm (some t))
         = (getTypeString t).map (fun s => s ++ "!"))
    ∧ (∀ (nm : Option String) (t : TypeRef),
       getTypeString (.mk "LIST" nm (some t))
         = (getTypeString t).map (fun s => "[" ++ s ++ "]"))
    ∧ (∀ (k : String) (nm : Option String) (o : Option TypeRef),
       k ≠ "NON_NULL" → k ≠ "LIST" →
       getTypeString (.mk k nm o) = some (nm.getD ""))
    ∧ getTypeString
        (.mk "NON_NULL" none (some (.mk "LIST" none
          (some (.mk "NON_NULL" none (some (.mk "SCALAR" (some "String") none)))))))
      = some "[String!]!" := by
  refine ⟨fun nm t => rfl, fun nm t => rfl, ?_, by decide⟩
  intro k nm o hk hl
  have hk2 : (k == "NON_NULL") = false := by
    cases hb : k == "NON_NULL" with
    | true => exact absurd (by simpa using hb) hk
    | false => rfl
  have hl2 : (k == "LIST") = false := by
    cases hb : k == "LIST" with
    | true => exact absurd (by simpa using hb) hl
    | false => rfl
  unfold getTypeString
  rw [hk2, hl2]
  simp

/-- C4 witness: the leaf equation applied at the SCALAR Int leaf. -/
theorem c4_type_rendering_witness :
    getTypeString (.mk "SCALAR" (some "Int") none) = some "Int" :=
  c4_type_rendering.2.2.1 "SCALAR" (some "Int") none (by decide) (by decide)

/-- C5: the composite test strips all wrappers and tests the leaf kind
against OBJECT, INTERFACE and UNION; the synthesized operation carries the
fixed placeholder selection inside the outer braces exactly when that test
is positive, and a field returning a LIST of a non-null ENUM gets no
selection suffix. -/
theorem c5_selection_suffix :
    (∀ (t u : TypeRef), unwrap t = some u →
       isComposite t
         = some (u.kind == "OBJECT" || u.kind == "INTERFACE" || u.kind == "UNION"))
    ∧ (∀ (f : Field) (opType : String) (comp : Bool),
       isComposite f.type = some comp →
       generateOperation f opType
         = (specHeader f opType).map (fun h =>
             h ++ " \x7b " ++ specCall f ++
               (if comp then " \x7b __typename \x7d" else "") ++ " \x7d"))
    ∧ generateOperation
        ⟨"colors", "", [],
         .mk "LIST" none (some (.mk "NON_NULL" none
           (some (.mk "ENUM" (some "Color") none))))⟩ "query"
      = some "query \x7b colors \x7d" := by
  refine ⟨?_, ?_, by decide⟩
  · intro t u h
    simp [isComposite, h]
  · intro f opType comp hcomp
    rw [genOp_eq_spec]
    unfold specOperation
    rw [hcomp]
    cases hh : specHeader f opType with
    | none => rfl
    | some h => rfl

/-- C5 witness: the composite test and the suffix equation applied at an
OBJECT leaf and at a concrete one-argument field returning it. -/
theorem c5_selection_suffix_witness :
    isComposite (.mk "OBJECT" (some "User") none) = some true :=
  c5_selection_suffix.1 (.mk "OBJECT" (some "User") none)
    (.mk "OBJECT" (some "User") none) (by decide)

/-- C6: with mutations requested, a schema with no mutation root type name
gives the non-fatal notice, a success exit, and exactly the query
operations on stdout; a schema whose declared mutation root name the
lookup rule cannot locate ends in the fatal mutation-type error after the
query operations were printed, with no notice. -/
theorem c6_mutation_handling (s : Schema) (qt : FullType)
    (hq : findTypeByName s.types s.queryType.name = some qt)
    (hok : (printOps (qt.fields.getD []) "query").2 = true) :
    (s.mutationType = none →
       runSchema s true
         = ⟨(printOps (qt.fields.getD []) "query").1, true, ExitKind.success⟩)
    ∧ (∀ mt : NamedTypeRef, s.mutationType = some mt →
       findTypeByName s.types mt.name = none →
       runSchema s true
         = ⟨(printOps (qt.fields.getD []) "query").1, false,
            ExitKind.fatalMutationType mt.name⟩) := by
  constructor
  · intro hm
    unfold runSchema
    rw [hq]
    simp [hok, hm]
  · intro mt hm hmt
    unfold runSchema
    rw [hq]
    simp [hok, hm, hmt]

/-- C6 witness: a one-field query root, no mutation type, mutations
requested: success, notice emitted, only the query operation printed. -/
theorem c6_mutation_handling_witness :
    runSchema
      ⟨⟨"Query"⟩, none, none,
       [⟨"OBJECT", "Query",
         some [⟨"ping", "", [], .mk "SCALAR" (some "String") none⟩],
         [], [], []⟩]⟩ true
      = ⟨["query \x7b ping \x7d", ""], true, ExitKind.success⟩ :=
  (c6_mutation_handling
    ⟨⟨"Query"⟩, none, none,
     [⟨"OBJECT", "Query",
       some [⟨"ping", "", [], .mk "SCALAR" (some "String") none⟩],
       [], [], []⟩]⟩
    ⟨"OBJECT", "Query",
      some [⟨"ping", "", [], .mk "SCALAR" (some "String") none⟩],
      [], [], []⟩
    (by decide) (by decide)).1 rfl

/-- A print loop that completes without panicking prints exactly one
operation line and one blank line per field, in declared order. -/
theorem printOps_complete (fs : List Field) (opType : String)
    (h : (printOps fs opType).2 = true) :
    (printOps fs opType).1 = specLines fs opType := by
  induction fs with
  | nil => rfl
  | cons f rest ih =>
    unfold printOps at h ⊢
    cases hg : generateOperation f opType with
    | none => rw [hg] at h; simp at h
    | some op =>
      rw [hg] at h
      have h2 : (printOps rest opType).2 = true := by simpa using h
      have hrest := ih h2
      simp [specLines, hg, hrest]

/-- C9: whenever the pipeline ends successfully, standard output is exactly
one operation per query-root field, each followed by a blank line, in
declared order, followed by the same shape for the mutation-root fields
exactly when mutations were requested and the mutation root was located. -/
theorem c9_output_shape (s : Schema) (m : Bool)
    (h : (runSchema s m).exit = ExitKind.success) :
    ∃ qt, findTypeByName s.types s.queryType.name = some qt ∧
      (runSchema s m).stdout
        = specLines (qt.fields.getD []) "query" ++
          (if m then
            match s.mutationType with
            | none => []
            | some mt =>
              match findTypeByName s.types mt.name with
              | none => []
              | some mtype => specLines (mtype.fields.getD []) "mutation"
          else []) := by
  unfold runSchema at h ⊢
  cases hq : findTypeByName s.types s.queryType.name with
  | none => rw [hq] at h; simp at h
  | some qt =>
    rw [hq] at h
    refine ⟨qt, rfl, ?_⟩
    cases hq2 : (printOps (qt.fields.getD []) "query").2 with
    | false => simp [hq2] at h
    | true =>
      simp only [hq2] at h ⊢
      have hqlines := printOps_complete (qt.fields.getD []) "query" hq2
      cases m with
      | false => simp [hqlines]
      | true =>
        cases hmt : s.mutationType with
        | none => simp [hmt, hqlines] at h ⊢
        | some mt =>
          cases hfm : findTypeByName s.types mt.name with
          | none => simp [hmt, hfm] at h
          | some mtype =>
            cases hm2 : (printOps (mtype.fields.getD []) "mutation").2 with
            | false => simp [hmt, hfm, hm2] at h
            | true =>
              have hmlines :=
                printOps_complete (mtype.fields.getD []) "mutation" hm2
              simp [hmt, hfm, hm2, hqlines, hmlines]

/-- C9 witness: a schema with a two-field query root run without mutations
exits successfully and prints exactly the two operations in order, each
followed by a blank line. -/
theorem c9_output_shape_witness :
    (runSchema
      ⟨⟨"Query"⟩, none, none,
       [⟨"OBJECT", "Query",
         some [⟨"ping", "", [], .mk "SCALAR" (some "String") none⟩,
               ⟨"me", "", [], .mk "OBJECT" (some "User") none⟩],
         [], [], []⟩]⟩ false).exit = ExitKind.success
    ∧ ∃ qt, findTypeByName
          [⟨"OBJECT", "Query",
            some [⟨"ping", "", [], .mk "SCALAR" (some "String") none⟩,
                  ⟨"me", "", [], .mk "OBJECT" (some "User") none⟩],
            [], [], []⟩] "Query" = some qt ∧
        (runSchema
          ⟨⟨"Query"⟩, none, none,
           [⟨"OBJECT", "Query",
             some [⟨"ping", "", [], .mk "SCALAR" (some "String") none⟩,
                   ⟨"me", "", [], .mk "OBJECT" (some "User") none⟩],
             [], [], []⟩]⟩ false).stdout
          = specLines (qt.fields.getD []) "query" ++ [] :=
  ⟨by decide, by
    have hx := c9_output_shape
      ⟨⟨"Query"⟩, none, none,
       [⟨"OBJECT", "Query",
         some [⟨"ping", "", [], .mk "SCALAR" (some "String") none⟩,
               ⟨"me", "", [], .mk "OBJECT" (some "User") none⟩],
         [], [], []⟩]⟩ false (by decide)
    simpa using hx⟩

/-- A TypeRef satisfying the wrapper-chain invariant makes both rendering
and unwrapping succeed, and the fuel-counted variants finish within chain
depth plus one steps, so both recursions terminate at every depth. -/
theorem wf_chain : ∀ t : TypeRef, reachesNamedLeaf t = true →
    (∃ s, getTypeString t = some s)
    ∧ (∃ u, unwrap t = some u)
    ∧ getTypeStringFuel (chainDepth t + 1) t = getTypeString t
    ∧ unwrapFuel (chainDepth t + 1) t = unwrap t
  | .mk k n o, h => by
    unfold reachesNamedLeaf at h
    by_cases hw : (k == "NON_NULL" || k == "LIST") = true
    · rw [if_pos hw] at h
      cases o with
      | none => exact absurd h (by simp)
      | some inner =>
        obtain ⟨⟨s, hs⟩, ⟨u, hu⟩, hf, hg⟩ := wf_chain inner h
        rcases Bool.or_eq_true .. |>.mp hw with hNN | hL
        · have hk : k = "NON_NULL" := by simpa using hNN
          subst hk
          refine ⟨⟨s ++ "!", by simp [getTypeString, hs]⟩,
            ⟨u, by simpa [unwrap] using hu⟩, ?_, ?_⟩
          · show getTypeStringFuel (chainDepth inner + 1 + 1) _ = _
            simp [getTypeStringFuel, getTypeString, hf]
          · show unwrapFuel (chainDepth inner + 1 + 1) _ = _
            simp [unwrapFuel, unwrap, hg]
        · have hk : k = "LIST" := by simpa using hL
          subst hk
          refine ⟨⟨"[" ++ s ++ "]", by simp [getTypeString, hs]⟩,
            ⟨u, by simpa [unwrap] using hu⟩, ?_, ?_⟩
          · show getTypeStringFuel (chainDepth inner + 1 + 1) _ = _
            simp [getTypeStringFuel, getTypeString, hf]
          · show unwrapFuel (chainDepth inner + 1 + 1) _ = _
            simp [unwrapFuel, unwrap, hg]
    · rw [if_neg hw] at h
      have hparts : (k == "NON_NULL") = false ∧ (k == "LIST") = false := by
        constructor
        · cases hb : k == "NON_NULL" with
          | true => exact absurd (by simp [hb]) hw
          | false => rfl
        · cases hb : k == "LIST" with
          | true => exact absurd (by simp [hb]) hw
          | false => rfl
      have hor : (k == "NON_NULL" || k == "LIST") = false := by
        rw [hparts.1, hparts.2]
        rfl
      refine ⟨⟨n.getD "", ?_⟩, ⟨.mk k n o, ?_⟩, ?_, ?_⟩
      · unfold getTypeString
        rw [hparts.1, hparts.2]
        simp
      · unfold unwrap
        rw [hor]
        simp
      · unfold getTypeStringFuel getTypeString
        rw [hparts.1, hparts.2]
        simp
      · unfold unwrapFuel unwrap
        rw [hor]
        simp

/-- LIST nests of every depth satisfy the wrapper-chain invariant and
realize that depth. -/
theorem nestList_wf (n : Nat) :
    reachesNamedLeaf (nestList n) = true ∧ chainDepth (nestList n) = n := by
  induction n with
  | zero => exact ⟨by decide, rfl⟩
  | succ k ih =>
    refine ⟨?_, ?_⟩
    · show reachesNamedLeaf (.mk "LIST" none (some (nestList k))) = true
      unfold reachesNamedLeaf
      simpa using ih.1
    · show chainDepth (.mk "LIST" none (some (nestList k))) = k + 1
      unfold chainDepth
      rw [ih.2]

/-- C8: for every TypeRef whose wrapper chain reaches a named non-wrapper
leaf, both getTypeString and unwrap produce a result, and their
fuel-counted unfoldings finish within chain depth plus one steps; moreover
such TypeRefs exist at every nesting depth, so no fixed depth limit is
involved. -/
theorem c8_termination :
    (∀ t : TypeRef, reachesNamedLeaf t = true →
       (∃ s, getTypeString t = some s)
       ∧ (∃ u, unwrap t = some u)
       ∧ getTypeStringFuel (chainDepth t + 1) t = getTypeString t
       ∧ unwrapFuel (chainDepth t + 1) t = unwrap t)
    ∧ (∀ n : Nat,
       reachesNamedLeaf (nestList n) = true ∧ chainDepth (nestList n) = n) :=
  ⟨wf_chain, nestList_wf⟩

/-- C8 witness: a depth-four chain, the non-null list of non-null Strings,
satisfies the invariant, and both recursions succeed on it within the
stated fuel. -/
theorem c8_termination_witness :
    reachesNamedLeaf
      (.mk "NON_NULL" none (some (.mk "LIST" none
        (some (.mk "NON_NULL" none (some (.mk "SCALAR" (some "String") none)))))))
      = true
    ∧ ((∃ s, getTypeString
          (.mk "NON_NULL" none (some (.mk "LIST" none
            (some (.mk "NON_NULL" none
              (some (.mk "SCALAR" (some "String") none))))))) = some s)
       ∧ (∃ u, unwrap
          (.mk "NON_NULL" none (some (.mk "LIST" none
            (some (.mk "NON_NULL" none
              (some (.mk "SCALAR" (some "String") none))))))) = some u)
       ∧ getTypeStringFuel
           (chainDepth (.mk "NON_NULL" none (some (.mk "LIST" none
             (some (.mk "NON_NULL" none
               (some (.mk "SCALAR" (some "String") none))))))) + 1)
           (.mk "NON_NULL" none (some (.mk "LIST" none
             (some (.mk "NON_NULL" none
               (some (.mk "SCALAR" (some "String") none)))))))
         = getTypeString
             (.mk "NON_NULL" none (some (.mk "LIST" none
               (some (.mk "NON_NULL" none
                 (some (.mk "SCALAR" (some "String") none)))))))
       ∧ unwrapFuel
           (chainDepth (.mk "NON_NULL" none (some (.mk "LIST" none
             (some (.mk "NON_NULL" none
               (some (.mk "SCALAR" (some "String") none))))))) + 1)
           (.mk "NON_NULL" none (some (.mk "LIST" none
             (some (.mk "NON_NULL" none
               (some (.mk "SCALAR" (some "String") none)))))))
         = unwrap
             (.mk "NON_NULL" none (some (.mk "LIST" none
               (some (.mk "NON_NULL" none
                 (some (.mk "SCALAR" (some "String") none)))))))) :=
  ⟨by decide,
   c8_termination.1
     (.mk "NON_NULL" none (some (.mk "LIST" none
       (some (.mk "NON_NULL" none (some (.mk "SCALAR" (some "String") none)))))))
     (by decide)⟩

end Gqlparse
